import Mathlib

/-!
Shallow embedding of the `urmom` lobby / world-state synchronization layer
(src/lobby/{lobby,host,client,single}.rs, src/world/spawn_point.rs).

Strings and byte buffers are modelled as `List Nat` of byte values;
machine arithmetic is `Nat` with explicit bounds; fallible Rust code
(`Result`, index panics, `panic!`/`todo!`) is modelled with `Except`/`Option`.
-/

set_option maxRecDepth 100000

namespace Urmom

/-- `renet::transport::NETCODE_USER_DATA_BYTES`: size of the fixed user-data
buffer carried at connection time. -/
def NETCODE_USER_DATA_BYTES : Nat := 256

/-- A UTF-8 continuation byte (`0x80..=0xBF`). -/
def isCont (b : Nat) : Bool := 0x80 ≤ b && b ≤ 0xBF

/-- UTF-8 validity of a byte sequence, as checked by Rust's
`String::from_utf8` (RFC 3629: no overlong forms, no surrogates,
code points at most U+10FFFF). -/
def validUtf8 : List Nat → Bool
  | [] => true
  | b :: rest =>
    if b < 0x80 then validUtf8 rest
    else if b < 0xC2 then false
    else if b ≤ 0xDF then
      match rest with
      | c1 :: rest2 => isCont c1 && validUtf8 rest2
      | [] => false
    else if b ≤ 0xEF then
      match rest with
      | c1 :: c2 :: rest3 =>
        (if b = 0xE0 then decide (0xA0 ≤ c1 && c1 ≤ 0xBF)
         else if b = 0xED then decide (0x80 ≤ c1 && c1 ≤ 0x9F)
         else isCont c1) && isCont c2 && validUtf8 rest3
      | _ => false
    else if b ≤ 0xF4 then
      match rest with
      | c1 :: c2 :: c3 :: rest4 =>
        (if b = 0xF0 then decide (0x90 ≤ c1 && c1 ≤ 0xBF)
         else if b = 0xF4 then decide (0x80 ≤ c1 && c1 ≤ 0x8F)
         else isCont c1) && isCont c2 && isCont c3 && validUtf8 rest4
      | _ => false
    else false

/-- The 8-byte little-endian encoding of a 64-bit integer
(`u64::to_le_bytes` applied to a length that fits in usize). -/
def leBytes8 (n : Nat) : List Nat :=
  [n % 256, n / 256 % 256, n / 256 ^ 2 % 256, n / 256 ^ 3 % 256,
   n / 256 ^ 4 % 256, n / 256 ^ 5 % 256, n / 256 ^ 6 % 256, n / 256 ^ 7 % 256]

/-- Little-endian decoding of a byte list (`u64::from_le_bytes`). -/
def fromLeBytes (l : List Nat) : Nat :=
  l.foldr (fun b acc => b + 256 * acc) 0

namespace Username

/-- `Username::to_netcode_data` (src/lobby/lobby.rs:114-127): errors when the
username's byte length exceeds `NETCODE_USER_DATA_BYTES - 8`; otherwise
produces the 256-byte buffer holding an 8-byte little-endian length prefix,
the raw bytes, and zero padding. -/
def to_netcode_data (s : List Nat) : Option (List Nat) :=
  if s.length > NETCODE_USER_DATA_BYTES - 8 then none
  else some (leBytes8 s.length ++ s ++
    List.replicate (NETCODE_USER_DATA_BYTES - 8 - s.length) 0)

/-- Failure modes of `Username::from_user_data`: an out-of-bounds slice
(a Rust index panic) or invalid UTF-8 (`String::from_utf8` error). -/
inductive DecodeErr where
  | oob
  | utf8
  deriving DecidableEq, Repr

/-- A checked slice `u[start..start+len]`: Rust slicing panics (modelled as
`.error`) when the range exceeds the buffer. -/
def sliceChecked (u : List Nat) (start len : Nat) : Except DecodeErr (List Nat) :=
  if start + len ≤ u.length then .ok ((u.drop start).take len)
  else .error .oob

/-- `Username::from_user_data` (src/lobby/lobby.rs:129-140): reads the 8-byte
little-endian length prefix, clamps it to `NETCODE_USER_DATA_BYTES - 8`,
slices `user_data[8..len+8]` and validates UTF-8. -/
def from_user_data (user_data : List Nat) : Except DecodeErr (List Nat) :=
  let len0 := fromLeBytes (user_data.take 8)
  let len := min len0 (NETCODE_USER_DATA_BYTES - 8)
  match sliceChecked user_data 8 len with
  | .error e => .error e
  | .ok data => if validUtf8 data then .ok data else .error .utf8

end Username

/-! ## Identities, colors and the identity registry (src/lobby/lobby.rs) -/

/-- `renet::ClientId`: a 64-bit transport-level connection identifier. -/
abbrev ClientId := Nat

/-- `crate::world::LinkId`: stable identifier of a non-player networked object. -/
abbrev LinkId := Nat

/-- A `bevy::ecs::entity::Entity` handle: stored and compared, never
dereferenced by this subsystem. -/
abbrev Entity := Nat

/-- `PlayerId` (src/lobby/lobby.rs:177-182). -/
inductive PlayerId where
  | hostOrSingle
  | client (id : ClientId)
  deriving DecidableEq, Repr, Inhabited

/-- `bevy::math::Vec3`, with exact rational coordinates in place of `f32`. -/
structure Vec3 where
  x : ℚ
  y : ℚ
  z : ℚ
  deriving DecidableEq, Repr

/-- `Vec3::ZERO`. -/
def Vec3.zero : Vec3 := ⟨0, 0, 0⟩

/-- `Vec3::ONE` (the default scale of a `Transform`). -/
def Vec3.one : Vec3 := ⟨1, 1, 1⟩

/-- `bevy::math::Quat`, with exact rational components in place of `f32`. -/
structure Quat where
  x : ℚ
  y : ℚ
  z : ℚ
  w : ℚ
  deriving DecidableEq, Repr

/-- `Quat::IDENTITY` (the default rotation). -/
def Quat.identity : Quat := ⟨0, 0, 0, 1⟩

/-- `bevy::prelude::Color`, restricted to the HSL constructor this subsystem
uses (`Color::hsl(h, s, l)`); components are exact rationals. -/
structure Color where
  hue : ℚ
  saturation : ℚ
  lightness : ℚ
  deriving DecidableEq, Repr

/-- `Color::hsl`. -/
def Color.hsl (h s l : ℚ) : Color := ⟨h, s, l⟩

/-- `Color::RED` (pure red: hue 0, full saturation, half lightness in HSL). -/
def Color.RED : Color := Color.hsl 0 1 (1/2)

/-- `PlayerView` (src/lobby/lobby.rs:261-265). -/
structure PlayerView where
  direction : Quat
  distance : ℚ
  deriving DecidableEq, Repr

/-- `PlayerView::default()`. -/
def PlayerView.default : PlayerView := ⟨Quat.identity, 0⟩

/-- The UTF-8 bytes of `"noname"`, the default username. -/
def noname : List Nat := [110, 111, 110, 97, 109, 101]

/-- The UTF-8 bytes of `"@corapted@"`, the sentinel username substituted when
decoding the user-data buffer fails (src/lobby/host.rs:254). -/
def corapted : List Nat := [64, 99, 111, 114, 97, 112, 116, 101, 100, 64]

/-- `PlayerData` (src/lobby/lobby.rs:195-201).  The accumulated input state
(`inputs`, an external `bevy_controls` type) carries no information used by
this subsystem's logic and is omitted.  The actor handle is optional; it is
absent only in the default placeholder instance, and accessing it in that
state is a fatal error. -/
structure PlayerData where
  entity : Option Entity
  color : Color
  username : List Nat
  deriving DecidableEq, Repr

/-- `PlayerData::new` (src/lobby/lobby.rs:204-211). -/
def PlayerData.new (entity : Entity) (color : Color) (username : List Nat) :
    PlayerData :=
  { entity := some entity, color := color, username := username }

/-- `PlayerData::default()` (src/lobby/lobby.rs:221-230). -/
def PlayerData.default : PlayerData :=
  { entity := none, color := Color.RED, username := noname }

/-- `Lobby` (src/lobby/lobby.rs:155-161): the identity registry.  The
`HashMap<PlayerId, PlayerData>` is modelled as an association list with
unique keys (insertion replaces an existing entry). -/
structure Lobby where
  me : PlayerData
  players : List (PlayerId × PlayerData)
  players_seq : Nat
  deriving DecidableEq, Repr

/-- `Lobby::default()`. -/
def Lobby.default : Lobby :=
  { me := PlayerData.default, players := [], players_seq := 0 }

/-- `HashMap::insert`: replaces any existing entry for the key (keeping keys
unique) and otherwise adds one. -/
def alistInsert {α β : Type} [DecidableEq α] (l : List (α × β)) (k : α) (v : β) :
    List (α × β) :=
  (k, v) :: l.filter (fun p => p.1 != k)

/-- `HashMap::remove`, dropping the entry (the removed value, when present, is
read off separately with `List.lookup`). -/
def alistRemove {α β : Type} [DecidableEq α] (l : List (α × β)) (k : α) :
    List (α × β) :=
  l.filter (fun p => p.1 != k)

/-! ## Protocol messages and snapshots (src/lobby/lobby.rs) -/

/-- `ServerMessages` (src/lobby/lobby.rs:46-95): the reliable-ordered channel
message family. -/
inductive ServerMessages where
  | initConnection (id : ClientId)
  | changeMap
  | playerConnected (id : PlayerId) (color : Color) (username : List Nat)
  | playerDisconnected (id : PlayerId)
  | projectileSpawn (id : LinkId) (color : Color)
  | actorDespawn (id : LinkId)
  deriving DecidableEq, Repr

/-- A reliable-channel send performed by the host: either addressed to one
client (`RenetServer::send_message`) or to all (`broadcast_message`). -/
inductive OutMsg where
  | unicast (dest : ClientId) (msg : ServerMessages)
  | broadcast (msg : ServerMessages)
  deriving DecidableEq, Repr

/-- `PlayerTransportData` (src/lobby/lobby.rs:237-242). -/
structure PlayerTransportData where
  position : Vec3
  rotation : Quat
  player_view : PlayerView
  deriving DecidableEq, Repr

/-- `ActorTransportData` (src/lobby/lobby.rs:244-248). -/
structure ActorTransportData where
  position : Vec3
  rotation : Quat
  deriving DecidableEq, Repr

/-- `TransportData` (src/lobby/lobby.rs:250-254): the per-tick unreliable
snapshot; both `HashMap`s are modelled as association lists. -/
structure TransportData where
  players : List (PlayerId × PlayerTransportData)
  actors : List (LinkId × ActorTransportData)
  deriving DecidableEq, Repr

/-- `TransportData::default()`. -/
def TransportData.default : TransportData := ⟨[], []⟩

/-- `bevy::transform::components::Transform` (translation, rotation, scale);
the replication code always builds it with `..Default::default()`, so the
scale is always `Vec3::ONE`. -/
structure Transform where
  translation : Vec3
  rotation : Quat
  scale : Vec3
  deriving DecidableEq, Repr

/-! ## Spawn points (src/world/spawn_point.rs) -/

/-- `SpawnProperty`: a newtype over `Vec<Vec3>`. -/
abbrev SpawnProperty := List Vec3

namespace SpawnProperty

/-- `SpawnProperty::is_empty`. -/
def is_empty (sp : SpawnProperty) : Bool := List.isEmpty sp

/-- `SpawnProperty::random_point` (src/world/spawn_point.rs:33-37): samples
`rng.gen_range(0..self.0.len())` and indexes.  The random draw is made
explicit as `r`; `gen_range` on the empty range `0..0` panics, modelled as
`none`. -/
def random_point (sp : SpawnProperty) (r : Nat) : Option Vec3 :=
  List.get? sp (r % List.length sp)

end SpawnProperty

/-! ## Fatal faults (Rust panics / `todo!`) -/

/-- Fatal stops of the lobby code: `gen_range` on an empty spawn-point set,
`PlayerData::entity()` on the placeholder instance, the double
`InitConnection` panic (src/lobby/client.rs:132), and the `todo!()` reached
on `ProjectileSpawn` receipt (src/lobby/client.rs:180). -/
inductive Fault where
  | emptySpawnPoints
  | missingEntity
  | doubleInit
  | todoProjectileSpawn
  deriving DecidableEq, Repr

/-! ## Host-side control loop (src/lobby/host.rs) -/

/-- A rational `a - b * ⌊a / b⌋`.  Rust's `%` on floats truncates toward
zero; every use below has non-negative operands, where truncation and floor
agree.  IEEE-754 `fmod` of representable operands is exact (it never
rounds), so the remainder itself needs no further rounding step. -/
def qrem (a b : ℚ) : ℚ := a - b * (⌊a / b⌋ : ℤ)

/-- Round a rational to the nearest integer, ties to even (the IEEE-754
default rounding of a significand). -/
def roundNearestEven (y : ℚ) : ℤ :=
  let z := ⌊y⌋
  let f := y - z
  if f < 1/2 then z
  else if 1/2 < f then z + 1
  else if z % 2 = 0 then z else z + 1

/-- Round a non-negative rational to an IEEE-754 binary32 value (24-bit
significand, round-to-nearest-even): scale into `[2^23, 2^24)`, round the
significand to an integer, scale back.  Faithful for the magnitudes this
program produces (`0`, or values in `[1, 2^104)`); negative inputs,
subnormals and overflow do not arise here. -/
def rnd32 (x : ℚ) : ℚ :=
  if x = 0 then 0
  else
    let e : ℤ := (Nat.log2 (Int.toNat ⌊x⌋) : ℤ) - 23
    (roundNearestEven (x / 2 ^ e) : ℚ) * 2 ^ e

/-- The `usize as u32` cast at the `generate_player_color` call sites
(src/lobby/host.rs:138, 228): truncation modulo `2^32`. -/
def u32cast (n : Nat) : Nat := n % 2 ^ 32

/-- `generate_player_color` (src/lobby/host.rs:196-200).  `player_number` is
the `u32` the caller passes.  The `f32` arithmetic is modelled bit-faithfully
over ℚ: `player_number as f32` rounds to 24 bits, the product with the
exactly-representable literal `137.5` rounds once more, and `% 360.0`
(IEEE `fmod`) is exact. -/
def generate_player_color (player_number : Nat) : Color :=
  let golden_angle : ℚ := 137.5
  let hue := qrem (rnd32 (golden_angle * rnd32 player_number)) 360
  Color.hsl hue 1 (1/2)

/-- Host-side state touched by the host systems: the `Lobby` resource, a
fresh-`Entity` allocator standing in for `Commands::spawn`, a count of
character spawns performed, whether a `Me`-tagged character exists (the
`Query<(), With<Me>>` of `load_processing`), and whether `MapLoaderState`
is `Yes`. -/
structure HostCtx where
  lobby : Lobby
  nextEntity : Nat
  spawnCount : Nat
  hasMe : Bool
  mapLoaded : Bool
  deriving DecidableEq, Repr

/-- The username extracted from a connection's user data, with the sentinel
fallback (src/lobby/host.rs:252-255). -/
def decodedUsername (user_data : List Nat) : List Nat :=
  match Username.from_user_data user_data with
  | .ok name => name
  | .error _ => corapted

/-- The `ServerEvent::ClientConnected` arm of `server_update_system`
(src/lobby/host.rs:216-270): send `InitConnection` to the new client,
bump the sequence counter, derive a color, spawn the character at a random
spawn point (`random_point` panics when the set is empty — no check here),
unicast one `PlayerConnected` per *existing* registry entry to the new
client, decode the username, register the new player, and broadcast its
`PlayerConnected`. -/
def hostClientConnected (ctx : HostCtx) (client_id : ClientId)
    (user_data : List Nat) (spawn_point : SpawnProperty) (r : Nat) :
    Except Fault (HostCtx × List OutMsg) :=
  let initMsg := OutMsg.unicast client_id (.initConnection client_id)
  let seq := ctx.lobby.players_seq + 1
  let color := generate_player_color (u32cast seq)
  match SpawnProperty.random_point spawn_point r with
  | none => .error .emptySpawnPoints
  | some _pos =>
    let player_entity := ctx.nextEntity
    let boot := ctx.lobby.players.map
      (fun p => OutMsg.unicast client_id (.playerConnected p.1 p.2.color p.2.username))
    let username := decodedUsername user_data
    let players' := alistInsert ctx.lobby.players (PlayerId.client client_id)
      (PlayerData.new player_entity color username)
    .ok
      ({ ctx with
          lobby := { ctx.lobby with players := players', players_seq := seq },
          nextEntity := ctx.nextEntity + 1,
          spawnCount := ctx.spawnCount + 1 },
       initMsg :: boot ++
         [OutMsg.broadcast (.playerConnected (.client client_id) color username)])

/-- The `ServerEvent::ClientDisconnected` arm of `server_update_system`
(src/lobby/host.rs:271-282): remove the entry, despawn its actor
(`PlayerData::entity()` panics on the placeholder), broadcast
`PlayerDisconnected`. -/
def hostClientDisconnected (ctx : HostCtx) (client_id : ClientId) :
    Except Fault (HostCtx × List OutMsg) :=
  let bye := [OutMsg.broadcast (.playerDisconnected (.client client_id))]
  match List.lookup (PlayerId.client client_id) ctx.lobby.players with
  | none => .ok (ctx, bye)
  | some player_data =>
    match player_data.entity with
    | none => .error .missingEntity
    | some _e =>
      .ok
        ({ ctx with
            lobby := { ctx.lobby with
              players := alistRemove ctx.lobby.players (.client client_id) } },
         bye)

/-- `load_processing` (src/lobby/host.rs:124-160): only when the spawn-point
set is non-empty — spawn the host's own character (bumping the sequence
counter) if no `Me` exists yet, then mark the map loaded.  `random_point`
is called only behind the non-emptiness check, so the `.error` branch is
unreachable (proved below). -/
def hostLoadProcessing (ctx : HostCtx) (spawn_point : SpawnProperty)
    (username : List Nat) (r : Nat) : Except Fault HostCtx :=
  if spawn_point.is_empty then .ok ctx
  else
    match
      (if ctx.hasMe then .ok ctx else
        let seq := ctx.lobby.players_seq + 1
        let color := generate_player_color (u32cast seq)
        match SpawnProperty.random_point spawn_point r with
        | none => .error .emptySpawnPoints
        | some _pos =>
          let player_entity := ctx.nextEntity
          .ok { ctx with
            lobby := { ctx.lobby with
              players_seq := seq,
              me := PlayerData.new player_entity color username },
            nextEntity := ctx.nextEntity + 2,
            spawnCount := ctx.spawnCount + 1,
            hasMe := true } : Except Fault HostCtx)
    with
    | .error e => .error e
    | .ok ctx' => .ok { ctx' with mapLoaded := true }

/-- One host-side tick event, for stating sequence-counter invariants. -/
inductive HostOp where
  | clientConnected (client_id : ClientId) (user_data : List Nat)
      (spawn_point : SpawnProperty) (r : Nat)
  | clientDisconnected (client_id : ClientId)
  | loadProcessing (spawn_point : SpawnProperty) (username : List Nat) (r : Nat)

/-- Dispatch one host-side event. -/
def hostStep (ctx : HostCtx) : HostOp → Except Fault HostCtx
  | .clientConnected cid ud sp r => (hostClientConnected ctx cid ud sp r).map (·.1)
  | .clientDisconnected cid => (hostClientDisconnected ctx cid).map (·.1)
  | .loadProcessing sp u r => hostLoadProcessing ctx sp u r

/-- Run a sequence of host-side events, stopping at the first fault. -/
def hostRun : HostCtx → List HostOp → Except Fault HostCtx
  | ctx, [] => .ok ctx
  | ctx, op :: ops =>
    match hostStep ctx op with
    | .error e => .error e
    | .ok ctx' => hostRun ctx' ops

/-! ## Client-side reception loop (src/lobby/client.rs) -/

/-- Client-side state touched by `client_sync_players`: the `Lobby` and
`OwnId` and `TransportDataResource` resources, the world's per-entity
`Transform` and `PlayerView` components, the `(Entity, LinkId)` query, the
`Me` and `TiedCamera` tags, an entity allocator, the count of
`UnloadActorsEvent` sends, and the entities despawned so far. -/
structure CState where
  lobby : Lobby
  own_id : Option ClientId
  transport_data : TransportData
  transforms : List (Entity × Transform)
  views : List (Entity × PlayerView)
  linked : List (Entity × LinkId)
  mes : List Entity
  cameras : List Entity
  nextEntity : Nat
  unloadEvents : Nat
  despawned : List Entity
  deriving DecidableEq, Repr

/-- One reliable-ordered message processed by `client_sync_players`
(src/lobby/client.rs:126-182).  Panics (`panic!` on a second
`InitConnection`, `PlayerData::entity()` on a placeholder, and the
`todo!()` on `ProjectileSpawn`) are modelled as `.error`. -/
def clientProcessMessage (st : CState) (m : ServerMessages) :
    Except Fault CState :=
  match m with
  | .initConnection id =>
    if st.own_id.isSome then .error .doubleInit
    else .ok { st with own_id := some id }
  | .changeMap => .ok { st with unloadEvents := st.unloadEvents + 1 }
  | .playerConnected player_id color username =>
    -- spawn_character_shell(player_id, color, Vec3::ZERO)
    let player_entity := st.nextEntity
    let st1 := { st with
      nextEntity := st.nextEntity + 1,
      transforms := alistInsert st.transforms player_entity
        ⟨Vec3.zero, Quat.identity, Vec3.one⟩ }
    let st2 :=
      match player_id with
      | .client id =>
        if some id = st1.own_id then
          -- insert Me and spawn a tied camera for the local player
          { st1 with
            mes := player_entity :: st1.mes,
            cameras := st1.nextEntity :: st1.cameras,
            nextEntity := st1.nextEntity + 1 }
        else st1
      | .hostOrSingle => st1
    .ok { st2 with
      lobby := { st2.lobby with
        players := alistInsert st2.lobby.players player_id
          (PlayerData.new player_entity color username) } }
  | .playerDisconnected id =>
    match List.lookup id st.lobby.players with
    | none => .ok st
    | some player_data =>
      match player_data.entity with
      | none => .error .missingEntity
      | some e =>
        .ok { st with
          lobby := { st.lobby with players := alistRemove st.lobby.players id },
          transforms := alistRemove st.transforms e,
          views := alistRemove st.views e,
          despawned := e :: st.despawned }
  | .actorDespawn id =>
    -- despawn every entity whose LinkId matches
    let victims := (st.linked.filter (fun p => p.2 == id)).map (·.1)
    .ok { st with
      linked := st.linked.filter (fun p => p.2 != id),
      transforms := st.transforms.filter (fun t => !(victims.contains t.1)),
      despawned := victims ++ st.despawned }
  | .projectileSpawn _ _ => .error .todoProjectileSpawn

/-- Drain the reliable-ordered channel (src/lobby/client.rs:126), stopping at
the first fatal fault. -/
def clientProcessReliable : CState → List ServerMessages → Except Fault CState
  | st, [] => .ok st
  | st, m :: rest =>
    match clientProcessMessage st m with
    | .error e => .error e
    | .ok st' => clientProcessReliable st' rest

/-- The player half of one snapshot application
(src/lobby/client.rs:187-200): for each snapshot player present in the
local registry, overwrite its transform and view state
(`PlayerData::entity()` panics on a placeholder). -/
def applyPlayers : CState → List (PlayerId × PlayerTransportData) →
    Except Fault CState
  | st, [] => .ok st
  | st, (player_id, data) :: rest =>
    match List.lookup player_id st.lobby.players with
    | none => applyPlayers st rest
    | some player_data =>
      match player_data.entity with
      | none => .error .missingEntity
      | some e =>
        applyPlayers
          { st with
            transforms := alistInsert st.transforms e
              ⟨data.position, data.rotation, Vec3.one⟩,
            views := alistInsert st.views e data.player_view }
          rest

/-- One actor entry of a snapshot (src/lobby/client.rs:202-213): every
locally-known entity tagged with the matching `LinkId` gets the transform
(zero matches are tolerated). -/
def applyActorEntry (st : CState) (link_id : LinkId) (data : ActorTransportData) :
    CState :=
  { st with
    transforms := st.linked.foldl
      (fun acc p =>
        if p.2 = link_id then
          alistInsert acc p.1 ⟨data.position, data.rotation, Vec3.one⟩
        else acc)
      st.transforms }

/-- The actor half of one snapshot application. -/
def applyActors : CState → List (LinkId × ActorTransportData) → CState
  | st, [] => st
  | st, (link_id, data) :: rest =>
    applyActors (applyActorEntry st link_id data) rest

/-- Application of one unreliable snapshot (src/lobby/client.rs:185-214):
store it in the `TransportDataResource`, then overwrite player transforms
and view states, then actor transforms. -/
def applySnapshot (st : CState) (snap : TransportData) : Except Fault CState :=
  match applyPlayers { st with transport_data := snap } snap.players with
  | .error e => .error e
  | .ok st' => .ok (applyActors st' snap.actors)

/-- Drain the unreliable channel for one tick: the `while let` loop applies
*every* buffered snapshot, in arrival order. -/
def clientDrainUnreliable : CState → List TransportData → Except Fault CState
  | st, [] => .ok st
  | st, snap :: rest =>
    match applySnapshot st snap with
    | .error e => .error e
    | .ok st' => clientDrainUnreliable st' rest

/-! ## Role teardown (src/lobby/{host,client,single}.rs) -/

/-- The kind of an actor entity, as seen by the teardown queries. -/
inductive ActorKind where
  | character
  | tiedCamera
  | other
  deriving DecidableEq, Repr

/-- The world state a teardown system sees: the live actors (with the
components the teardown queries filter on), whether the role-scoped
resources are installed, and the count of `UnloadActorsEvent` sends. -/
structure TWorld where
  actors : List (Entity × ActorKind)
  lobbyRes : Bool
  transportRes : Bool
  unloadEvents : Nat
  deriving DecidableEq, Repr

/-- Host `teardown` (src/lobby/host.rs:178-194): despawns every `TiedCamera`
and every `Character` entity, removes the `Lobby` and
`TransportDataResource` resources, sends `UnloadActorsEvent`. -/
def hostTeardown (w : TWorld) : TWorld :=
  { w with
    actors := w.actors.filter
      (fun p => p.2 != ActorKind.tiedCamera && p.2 != ActorKind.character),
    lobbyRes := false,
    transportRes := false,
    unloadEvents := w.unloadEvents + 1 }

/-- Client `teardown` (src/lobby/client.rs:94-112): the entire body is
commented out — nothing is despawned, no resource removed, no event sent. -/
def clientTeardown (w : TWorld) : TWorld := w

/-- Single `teardown` (src/lobby/single.rs:101-115): uses
`Query::get_single`, so the camera is despawned only when *exactly one*
`TiedCamera` exists, and likewise for `Character`; no resource is removed;
`UnloadActorsEvent` is sent.  Both queries observe the pre-teardown world
(commands are deferred). -/
def singleTeardown (w : TWorld) : TWorld :=
  let removeCam :=
    (w.actors.filter (fun p => p.2 == ActorKind.tiedCamera)).length = 1
  let removeChar :=
    (w.actors.filter (fun p => p.2 == ActorKind.character)).length = 1
  { w with
    actors := w.actors.filter
      (fun p =>
        !(decide removeCam && p.2 == ActorKind.tiedCamera) &&
        !(decide removeChar && p.2 == ActorKind.character)),
    unloadEvents := w.unloadEvents + 1 }

/-! ## Iterated color generation (spec §4.2 `next_color`) -/

/-- The code pattern `lobby.players_seq += 1;
generate_player_color(lobby.players_seq as u32)` (src/lobby/host.rs:137-138
and 227-228), packaged as the spec's `next_color()` operation. -/
def next_color (l : Lobby) : Lobby × Color :=
  let seq := l.players_seq + 1
  ({ l with players_seq := seq }, generate_player_color (u32cast seq))

/-- The registry state after `n` successive `next_color()` calls. -/
def iterNextColor : Nat → Lobby → Lobby
  | 0, l => l
  | n + 1, l => iterNextColor n (next_color l).1

/-! ## Concrete fixtures -/

/-- A concrete client state: one registered remote player (`Client(1)`,
actor entity 5), own identity recorded, empty component stores. -/
def cstFixture : CState :=
  ⟨⟨PlayerData.default, [(PlayerId.client 1, PlayerData.new 5 Color.RED noname)], 1⟩,
    some 1, TransportData.default, [], [], [], [], [], 6, 0, []⟩

/-- A concrete snapshot: moves player `Client(1)` to position `(1,2,3)`. -/
def snapMove : TransportData :=
  ⟨[(PlayerId.client 1, ⟨⟨1, 2, 3⟩, Quat.identity, PlayerView.default⟩)], []⟩

/-! ## Helper lemmas -/

theorem leBytes8_length (n : Nat) : (leBytes8 n).length = 8 := rfl

theorem fromLeBytes_leBytes8 (n : Nat) (h : n < 2 ^ 64) :
    fromLeBytes (leBytes8 n) = n := by
  simp only [leBytes8, fromLeBytes, List.foldr_cons, List.foldr_nil]
  omega

theorem lookup_alistInsert_self {α β : Type} [DecidableEq α]
    (l : List (α × β)) (k : α) (v : β) :
    List.lookup k (alistInsert l k v) = some v := by
  simp [alistInsert, List.lookup]

theorem lookup_filter_ne {α β : Type} [DecidableEq α]
    (l : List (α × β)) (k k' : α) (h : k ≠ k') :
    List.lookup k (l.filter (fun p => p.1 != k')) = List.lookup k l := by
  induction l with
  | nil => simp
  | cons p rest ih =>
    obtain ⟨a, b⟩ := p
    by_cases hk : a = k'
    · subst hk
      simp only [List.filter_cons, bne_self_eq_false, Bool.false_eq_true,
        if_false, List.lookup, beq_eq_false_iff_ne.mpr h]
      exact ih
    · by_cases hpk : a = k
      · subst hpk
        simp [List.filter_cons, bne_iff_ne, hk, List.lookup]
      · simp [List.filter_cons, bne_iff_ne, hk, List.lookup,
          beq_eq_false_iff_ne.mpr (fun he => hpk he.symm), ih]

theorem lookup_alistInsert_ne {α β : Type} [DecidableEq α]
    (l : List (α × β)) (k k' : α) (v : β) (h : k ≠ k') :
    List.lookup k (alistInsert l k' v) = List.lookup k l := by
  simp only [alistInsert, List.lookup, beq_eq_false_iff_ne.mpr h]
  exact lookup_filter_ne l k k' h

/-- The buffer produced by a successful `to_netcode_data`. -/
theorem to_netcode_data_ok (s : List Nat) (hl : s.length ≤ NETCODE_USER_DATA_BYTES - 8) :
    Username.to_netcode_data s =
      some (leBytes8 s.length ++
        (s ++ List.replicate (NETCODE_USER_DATA_BYTES - 8 - s.length) 0)) := by
  rw [Username.to_netcode_data, if_neg (by omega), List.append_assoc]

/-- Decoding the buffer `to_netcode_data` built for `s` recovers `s`. -/
theorem from_user_data_to_netcode_data (s : List Nat)
    (hv : validUtf8 s = true) (hl : s.length ≤ NETCODE_USER_DATA_BYTES - 8) :
    Username.from_user_data
      (leBytes8 s.length ++
        (s ++ List.replicate (NETCODE_USER_DATA_BYTES - 8 - s.length) 0)) =
      .ok s := by
  have hl' : s.length ≤ 248 := by
    simpa [NETCODE_USER_DATA_BYTES] using hl
  have h8 : (leBytes8 s.length).length = 8 := rfl
  have htake :
      (leBytes8 s.length ++
        (s ++ List.replicate (NETCODE_USER_DATA_BYTES - 8 - s.length) 0)).take 8 =
        leBytes8 s.length := by
    rw [← h8]; exact List.take_left _ _
  have hdrop :
      (leBytes8 s.length ++
        (s ++ List.replicate (NETCODE_USER_DATA_BYTES - 8 - s.length) 0)).drop 8 =
        s ++ List.replicate (NETCODE_USER_DATA_BYTES - 8 - s.length) 0 := by
    rw [← h8]; exact List.drop_left _ _
  have hlen :
      (leBytes8 s.length ++
        (s ++ List.replicate (NETCODE_USER_DATA_BYTES - 8 - s.length) 0)).length =
        NETCODE_USER_DATA_BYTES := by
    simp [List.length_append, List.length_replicate, h8, NETCODE_USER_DATA_BYTES]
    omega
  rw [Username.from_user_data]
  simp only [htake, fromLeBytes_leBytes8 s.length (by omega),
    Nat.min_eq_left hl, Username.sliceChecked, hlen,
    show 8 + s.length ≤ NETCODE_USER_DATA_BYTES by
      simp [NETCODE_USER_DATA_BYTES]; omega,
    if_true, hdrop]
  rw [List.take_left' rfl]; simp [hv]

/-! ## Claim theorems -/

/-- C3: for every username byte string `s` (valid UTF-8, as every Rust
`String` is) of length at most `NETCODE_USER_DATA_BYTES - 8`, encoding into
the fixed-size user-data buffer and decoding it back yields `s`; for every
longer `s`, encoding fails and produces no output. -/
theorem username_roundtrip (s : List Nat) :
    (validUtf8 s = true → s.length ≤ NETCODE_USER_DATA_BYTES - 8 →
      (Username.to_netcode_data s).map Username.from_user_data =
        some (Except.ok s))
    ∧ (NETCODE_USER_DATA_BYTES - 8 < s.length →
        Username.to_netcode_data s = none) := by
  constructor
  · intro hv hl
    rw [to_netcode_data_ok s hl, Option.map_some',
      from_user_data_to_netcode_data s hv hl]
  · intro hl
    rw [Username.to_netcode_data, if_pos (by omega)]

/-- Witness for C3: the username `"hi"` round-trips, and a 249-byte username
is rejected by the encoder. -/
theorem username_roundtrip_witness :
    (Username.to_netcode_data [104, 105]).map Username.from_user_data =
        some (Except.ok [104, 105]) ∧
      Username.to_netcode_data (List.replicate 249 0) = none :=
  ⟨(username_roundtrip [104, 105]).1 (by decide) (by decide),
   (username_roundtrip (List.replicate 249 0)).2
     (by simp [NETCODE_USER_DATA_BYTES])⟩

/-- C9: decoding any full-size user-data buffer never slices out of bounds:
the length prefix is clamped to `NETCODE_USER_DATA_BYTES - 8` before
slicing, and the result is exactly the clamped slice when it is valid
UTF-8 and a UTF-8 decode failure otherwise (never an out-of-bounds
fault). -/
theorem from_user_data_safe (u : List Nat)
    (h : u.length = NETCODE_USER_DATA_BYTES) :
    Username.from_user_data u =
      (let d := (u.drop 8).take
        (min (fromLeBytes (u.take 8)) (NETCODE_USER_DATA_BYTES - 8))
       if validUtf8 d then Except.ok d else Except.error .utf8) := by
  rw [Username.from_user_data]
  have hle : 8 + min (fromLeBytes (u.take 8)) (NETCODE_USER_DATA_BYTES - 8) ≤
      u.length := by
    have := Nat.min_le_right (fromLeBytes (u.take 8)) (NETCODE_USER_DATA_BYTES - 8)
    rw [h]
    simp only [NETCODE_USER_DATA_BYTES] at this ⊢
    omega
  simp only [Username.sliceChecked, if_pos hle]

/-- Witness for C9: a 256-byte buffer whose length prefix claims 300 bytes
decodes without a bounds fault (the length is clamped to 248). -/
theorem from_user_data_safe_witness :
    Username.from_user_data (leBytes8 300 ++ List.replicate 248 97) =
      (let d := ((leBytes8 300 ++ List.replicate 248 97).drop 8).take
        (min (fromLeBytes ((leBytes8 300 ++ List.replicate 248 97).take 8))
          (NETCODE_USER_DATA_BYTES - 8))
       if validUtf8 d then Except.ok d else Except.error .utf8) :=
  from_user_data_safe (leBytes8 300 ++ List.replicate 248 97)
    (by simp [leBytes8, NETCODE_USER_DATA_BYTES])

theorem iterNextColor_players_seq (n : Nat) (l : Lobby) :
    (iterNextColor n l).players_seq = l.players_seq + n := by
  induction n generalizing l with
  | zero => simp [iterNextColor]
  | succ n ih =>
    rw [iterNextColor, ih]
    simp [next_color]
    omega

theorem roundNearestEven_intCast (z : ℤ) : roundNearestEven (z : ℚ) = z := by
  rw [roundNearestEven]
  simp [Int.floor_intCast]

theorem roundNearestEven_natCast (w : ℕ) : roundNearestEven (w : ℚ) = w := by
  have := roundNearestEven_intCast (w : ℤ)
  rw [Int.cast_natCast] at this
  exact_mod_cast this

theorem log2_eq_of_bounds (n k : ℕ) (h0 : n ≠ 0) (h1 : 2 ^ k ≤ n)
    (h2 : n < 2 ^ (k + 1)) : Nat.log2 n = k := by
  have ha := Nat.log2_self_le h0
  have hb := Nat.lt_log2_self (n := n)
  have h3 : k < Nat.log2 n + 1 :=
    (Nat.pow_lt_pow_iff_right (by norm_num)).mp (Nat.lt_of_le_of_lt h1 hb)
  have h4 : Nat.log2 n < k + 1 :=
    (Nat.pow_lt_pow_iff_right (by norm_num)).mp (Nat.lt_of_le_of_lt ha h2)
  omega

/-- Half-integers below `2^23` (so in particular integers below `2^23` and
the products `137.5 × n` for `n ≤ 61008`) are exactly representable in
binary32: rounding leaves them unchanged. -/
theorem rnd32_half (m : ℕ) (h1 : 2 ≤ m) (h2 : m < 2 ^ 24) :
    rnd32 ((m : ℚ) / 2) = (m : ℚ) / 2 := by
  have hx1 : (1 : ℚ) ≤ (m : ℚ) / 2 := by
    rw [le_div_iff₀ (by norm_num)]
    exact_mod_cast by omega
  have hx0 : (m : ℚ) / 2 ≠ 0 := by
    have : (0 : ℚ) < (m : ℚ) / 2 := lt_of_lt_of_le one_pos hx1
    exact ne_of_gt this
  rw [rnd32, if_neg hx0]
  have hfl : (1 : ℤ) ≤ ⌊(m : ℚ) / 2⌋ := by
    rw [Int.le_floor]
    exact_mod_cast hx1
  set t : ℕ := Int.toNat ⌊(m : ℚ) / 2⌋ with ht
  have htZ : (t : ℤ) = ⌊(m : ℚ) / 2⌋ := Int.toNat_of_nonneg (by omega)
  have ht1 : 1 ≤ t := by omega
  have htle : (t : ℚ) ≤ (m : ℚ) / 2 := by
    rw [show ((t : ℚ)) = (((t : ℤ)) : ℚ) by push_cast; rfl, htZ]
    exact Int.floor_le _
  set k := Nat.log2 t with hk
  have hk1 : 2 ^ k ≤ t := Nat.log2_self_le (by omega)
  have hk2 : t < 2 ^ (k + 1) := Nat.lt_log2_self
  have hklt : k ≤ 22 := by
    have hxlt : (m : ℚ) / 2 < 2 ^ 23 := by
      rw [div_lt_iff₀ (by norm_num)]
      calc (m : ℚ) < ((2 ^ 24 : ℕ) : ℚ) := by exact_mod_cast h2
        _ = 2 ^ 23 * 2 := by norm_num
    have htlt23 : (t : ℚ) < 2 ^ 23 := lt_of_le_of_lt htle hxlt
    have htn : t < 2 ^ 23 := by exact_mod_cast htlt23
    have := (Nat.pow_lt_pow_iff_right (by norm_num : 1 < 2)).mp
      (Nat.lt_of_le_of_lt hk1 htn)
    omega
  have ha : (k : ℤ) - 23 = -(((23 - k : ℕ)) : ℤ) := by omega
  have h23k : 23 - k = (22 - k) + 1 := by omega
  have hpow_ne : ((2 : ℚ) ^ (22 - k)) ≠ 0 := by positivity
  rw [ha]
  simp only [zpow_neg, zpow_natCast]
  rw [div_eq_mul_inv ((m : ℚ) / 2), inv_inv]
  have hsig : (m : ℚ) / 2 * 2 ^ (23 - k) = ((m * 2 ^ (22 - k) : ℕ) : ℚ) := by
    rw [h23k, pow_succ]
    push_cast
    ring
  rw [hsig, roundNearestEven_natCast]
  push_cast
  rw [h23k, pow_succ]
  field_simp
  ring

/-- Integers below `2^23` are exactly representable in binary32. -/
theorem rnd32_nat (n : ℕ) (h1 : 1 ≤ n) (h2 : n < 2 ^ 23) :
    rnd32 (n : ℚ) = n := by
  have h := rnd32_half (2 * n) (by omega) (by omega)
  have h2n : ((2 * n : ℕ) : ℚ) / 2 = (n : ℚ) := by
    push_cast
    ring
  rw [h2n] at h
  exact h

/-- Counterexample for C7: the claimed hue formula `(137.5 × n) mod 360`
fails on the program.  At `n = 61009` the f32 product `137.5 × 61009 =
8388737.5` exceeds `2^23`, so it rounds (ties-to-even) to `8388738` and the
code's hue is `18`, not `17.5`; at `n = 2^32` the `usize as u32` cast wraps
to `0` and the code's hue is `0`, not `280`. -/
theorem golden_angle_f32_counterexample :
    (next_color (iterNextColor 61008 Lobby.default)).2 ≠
        Color.hsl (qrem (137.5 * ((61009 : ℕ) : ℚ)) 360) 1 (1/2) ∧
      (next_color (iterNextColor (2 ^ 32 - 1) Lobby.default)).2 ≠
        Color.hsl (qrem (137.5 * ((2 ^ 32 : ℕ) : ℚ)) 360) 1 (1/2) := by
  have hround : rnd32 ((16777475 : ℚ) / 2) = 8388738 := by
    rw [rnd32, if_neg (by norm_num)]
    have hfl : ⌊(16777475 : ℚ) / 2⌋ = 8388737 := by norm_num
    have hlog : Nat.log2 8388737 = 23 :=
      log2_eq_of_bounds _ _ (by norm_num) (by norm_num) (by norm_num)
    rw [hfl, show Int.toNat (8388737 : ℤ) = 8388737 from rfl, hlog]
    norm_num [roundNearestEven, hfl]
  constructor
  · have hseq : (iterNextColor 61008 Lobby.default).players_seq = 61008 := by
      rw [iterNextColor_players_seq]
      simp [Lobby.default]
    have hlhs : (next_color (iterNextColor 61008 Lobby.default)).2 =
        Color.hsl 18 1 (1/2) := by
      rw [next_color, hseq]
      rw [show u32cast (61008 + 1) = 61009 from by
        rw [u32cast]; exact Nat.mod_eq_of_lt (by norm_num)]
      simp only [generate_player_color]
      rw [rnd32_nat 61009 (by norm_num) (by norm_num),
        show (137.5 : ℚ) * ((61009 : ℕ) : ℚ) = (16777475 : ℚ) / 2 by
          push_cast; norm_num,
        hround,
        show qrem (8388738 : ℚ) 360 = 18 by norm_num [qrem]]
    rw [hlhs,
      show qrem ((137.5 : ℚ) * ((61009 : ℕ) : ℚ)) 360 = 35/2 by
        push_cast; norm_num [qrem]]
    simp only [Color.hsl, ne_eq, Color.mk.injEq, not_and]
    norm_num
  · have hseq2 : (iterNextColor (2 ^ 32 - 1) Lobby.default).players_seq =
        2 ^ 32 - 1 := by
      rw [iterNextColor_players_seq]
      simp [Lobby.default]
    have hr0 : rnd32 (0 : ℚ) = 0 := by rw [rnd32]; simp
    have hlhs2 : (next_color (iterNextColor (2 ^ 32 - 1) Lobby.default)).2 =
        Color.hsl 0 1 (1/2) := by
      rw [next_color, hseq2]
      rw [show u32cast (2 ^ 32 - 1 + 1) = 0 from by rw [u32cast]; norm_num]
      simp only [generate_player_color]
      rw [show ((0 : ℕ) : ℚ) = 0 from rfl, hr0, mul_zero, hr0,
        show qrem (0 : ℚ) 360 = 0 by norm_num [qrem]]
    rw [hlhs2,
      show qrem ((137.5 : ℚ) * ((2 ^ 32 : ℕ) : ℚ)) 360 = 280 by
        push_cast; norm_num [qrem]]
    simp only [Color.hsl, ne_eq, Color.mk.injEq, not_and]
    norm_num

/-- C7 as amended: the counter is incremented before each derivation, every
color has saturation `1` and lightness `0.5`, and for `1 ≤ n ≤ 61008` —
the range in which the f32 product `137.5 × n` (at most `8388600 < 2^23`)
and the `u32` sequence value are exact — the `n`-th color's hue is
`(137.5 × n) mod 360`.  Beyond that the formula fails: f32 rounding first
diverges at `n = 61009` and the `usize as u32` cast wraps at `n = 2^32`
(see the counterexample). -/
theorem nth_color_golden_angle (n : Nat) (h : 1 ≤ n) :
    ((next_color (iterNextColor (n - 1) Lobby.default)).2.saturation = 1 ∧
      (next_color (iterNextColor (n - 1) Lobby.default)).2.lightness = 1/2) ∧
    (n ≤ 61008 →
      (next_color (iterNextColor (n - 1) Lobby.default)).2 =
        Color.hsl (qrem (137.5 * n) 360) 1 (1/2)) ∧
    (iterNextColor n Lobby.default).players_seq = n := by
  have hseq : (iterNextColor (n - 1) Lobby.default).players_seq = n - 1 := by
    rw [iterNextColor_players_seq]
    simp [Lobby.default]
  refine ⟨⟨rfl, rfl⟩, ?_, ?_⟩
  · intro hle
    rw [next_color, hseq]
    have hn : n - 1 + 1 = n := by omega
    rw [hn,
      show u32cast n = n from by
        rw [u32cast]
        exact Nat.mod_eq_of_lt (lt_of_le_of_lt hle (by norm_num))]
    simp only [generate_player_color]
    rw [rnd32_nat n h (lt_of_le_of_lt hle (by norm_num))]
    have h275 : (137.5 : ℚ) * (n : ℚ) = ((275 * n : ℕ) : ℚ) / 2 := by
      push_cast
      ring_nf
    rw [h275, rnd32_half (275 * n) (by omega) (by omega), ← h275]

  · rw [iterNextColor_players_seq]
    simp [Lobby.default]

/-- Witness for C7 (amended): the third color from a fresh counter (well
inside the exact range) has hue `(137.5 × 3) mod 360 = 52.5`. -/
theorem nth_color_golden_angle_witness :
    (next_color (iterNextColor 2 Lobby.default)).2 =
      Color.hsl (105/2) 1 (1/2) := by
  have h := (nth_color_golden_angle 3 (by norm_num)).2.1 (by norm_num)
  rw [show (3 : Nat) - 1 = 2 from rfl] at h
  rw [h]
  norm_num [qrem, Color.hsl]

/-- C10: whenever the spawn-point set is non-empty, `random_point` returns an
element of the set (the sampled index is in bounds); on the empty set it is
the `gen_range` panic.  The host's client-connect handler calls it with no
emptiness check, so an empty set is fatal there, while `load_processing`
checks first and therefore never faults. -/
theorem random_point_spec :
    (∀ (sp : SpawnProperty) (r : Nat), sp ≠ [] →
      ∃ v, SpawnProperty.random_point sp r = some v ∧ v ∈ sp)
    ∧ (∀ r, SpawnProperty.random_point ([] : SpawnProperty) r = none)
    ∧ (∀ ctx cid ud r, hostClientConnected ctx cid ud ([] : SpawnProperty) r =
        .error .emptySpawnPoints)
    ∧ (∀ ctx (sp : SpawnProperty) u r, ∃ ctx',
        hostLoadProcessing ctx sp u r = .ok ctx') := by
  have hsome : ∀ (sp : SpawnProperty) (r : Nat), sp ≠ [] →
      ∃ v, SpawnProperty.random_point sp r = some v ∧ v ∈ sp := by
    intro sp r hne
    have hlen : 0 < sp.length := List.length_pos.mpr hne
    have hmod : r % sp.length < sp.length := Nat.mod_lt _ hlen
    refine ⟨sp.get ⟨r % sp.length, hmod⟩, ?_, List.get_mem _ _ _⟩
    rw [SpawnProperty.random_point]
    exact List.get?_eq_get hmod
  refine ⟨hsome, fun r => rfl, fun ctx cid ud r => rfl, ?_⟩
  intro ctx sp u r
  rw [hostLoadProcessing]
  by_cases hemp : sp.is_empty
  · simp [hemp]
  · have hne : sp ≠ [] := by
      intro hnil
      rw [hnil] at hemp
      exact hemp rfl
    obtain ⟨v, hv, _⟩ := hsome sp r hne
    by_cases hme : ctx.hasMe
    · simp [hemp, hme]
    · simp [hemp, hme, hv]

/-- Witness for C10: a singleton spawn-point set always yields its point, and
`load_processing` succeeds on a concrete context. -/
theorem random_point_spec_witness :
    (∃ v, SpawnProperty.random_point [Vec3.zero] 5 = some v ∧ v ∈ [Vec3.zero])
    ∧ ∃ ctx', hostLoadProcessing ⟨Lobby.default, 0, 0, false, false⟩
        [Vec3.zero] noname 0 = .ok ctx' :=
  ⟨random_point_spec.1 [Vec3.zero] 5 (by simp),
   random_point_spec.2.2.2 ⟨Lobby.default, 0, 0, false, false⟩ [Vec3.zero]
     noname 0⟩

theorem hostClientConnected_counters (ctx : HostCtx) (cid : ClientId)
    (ud : List Nat) (sp : SpawnProperty) (r : Nat)
    (out : HostCtx × List OutMsg)
    (h : hostClientConnected ctx cid ud sp r = .ok out) :
    out.1.lobby.players_seq = ctx.lobby.players_seq + 1 ∧
      out.1.spawnCount = ctx.spawnCount + 1 := by
  rw [hostClientConnected] at h
  split at h
  · exact absurd h (by simp)
  · cases h
    simp

theorem hostClientDisconnected_counters (ctx : HostCtx) (cid : ClientId)
    (out : HostCtx × List OutMsg)
    (h : hostClientDisconnected ctx cid = .ok out) :
    out.1.lobby.players_seq = ctx.lobby.players_seq ∧
      out.1.spawnCount = ctx.spawnCount := by
  rw [hostClientDisconnected] at h
  split at h
  · cases h; simp
  · split at h
    · exact absurd h (by simp)
    · cases h; simp

theorem hostLoadProcessing_counters (ctx : HostCtx) (sp : SpawnProperty)
    (u : List Nat) (r : Nat) (ctx' : HostCtx)
    (h : hostLoadProcessing ctx sp u r = .ok ctx') :
    (ctx.hasMe = false → sp.is_empty = false →
      ctx'.lobby.players_seq = ctx.lobby.players_seq + 1 ∧
        ctx'.spawnCount = ctx.spawnCount + 1)
    ∧ (ctx.hasMe = true ∨ sp.is_empty = true →
      ctx'.lobby.players_seq = ctx.lobby.players_seq ∧
        ctx'.spawnCount = ctx.spawnCount) := by
  rw [hostLoadProcessing] at h
  by_cases hemp : sp.is_empty
  · rw [if_pos hemp] at h
    cases h
    exact ⟨fun _ hf => absurd hemp (by simp [hf]), fun _ => ⟨rfl, rfl⟩⟩
  · rw [if_neg hemp] at h
    by_cases hme : ctx.hasMe
    · rw [if_pos hme] at h
      cases h
      exact ⟨fun hf _ => absurd hme (by simp [hf]), fun _ => ⟨rfl, rfl⟩⟩
    · rw [if_neg hme] at h
      cases hrp : SpawnProperty.random_point sp r with
      | none => simp only [hrp] at h; exact absurd h (by simp)
      | some v =>
        simp only [hrp] at h
        cases h
        refine ⟨fun _ _ => ⟨rfl, rfl⟩, fun hor => ?_⟩
        rcases hor with hf | hf
        · exact absurd hf hme
        · exact absurd hf hemp

theorem hostStep_seq_le (ctx : HostCtx) (op : HostOp) (ctx' : HostCtx)
    (h : hostStep ctx op = .ok ctx') :
    ctx.lobby.players_seq ≤ ctx'.lobby.players_seq := by
  cases op with
  | clientConnected cid ud sp r =>
    rw [hostStep] at h
    cases he : hostClientConnected ctx cid ud sp r with
    | error e => rw [he] at h; exact absurd h (by simp [Except.map])
    | ok out =>
      rw [he] at h
      simp only [Except.map] at h
      cases h
      have := hostClientConnected_counters ctx cid ud sp r out he
      omega
  | clientDisconnected cid =>
    rw [hostStep] at h
    cases he : hostClientDisconnected ctx cid with
    | error e => rw [he] at h; exact absurd h (by simp [Except.map])
    | ok out =>
      rw [he] at h
      simp only [Except.map] at h
      cases h
      have := hostClientDisconnected_counters ctx cid out he
      omega
  | loadProcessing sp u r =>
    rw [hostStep] at h
    have := hostLoadProcessing_counters ctx sp u r ctx' h
    by_cases hme : ctx.hasMe
    · have := this.2 (Or.inl hme); omega
    · by_cases hemp : sp.is_empty
      · have := this.2 (Or.inr hemp); omega
      · have := this.1 (by simpa using hme) (by simpa using hemp); omega

theorem hostRun_seq_le (ctx : HostCtx) (ops : List HostOp) (ctx' : HostCtx)
    (h : hostRun ctx ops = .ok ctx') :
    ctx.lobby.players_seq ≤ ctx'.lobby.players_seq := by
  induction ops generalizing ctx with
  | nil => rw [hostRun] at h; cases h; exact Nat.le_refl _
  | cons op ops ih =>
    rw [hostRun] at h
    cases he : hostStep ctx op with
    | error e => rw [he] at h; exact absurd h (by simp)
    | ok mid =>
      rw [he] at h
      exact Nat.le_trans (hostStep_seq_le ctx op mid he) (ih mid h)

/-- C8: host-side, the `players_seq` counter never decreases across any
sequence of host events, and it is incremented exactly once per successful
character spawn: by one on every accepted client connection, by one when
`load_processing` spawns the host's own character (no `Me` yet, spawn
points available), and not at all otherwise (disconnects, or
`load_processing` with `Me` present or no spawn points). -/
theorem players_seq_invariant :
    (∀ (ctx : HostCtx) (ops : List HostOp) (ctx' : HostCtx),
      hostRun ctx ops = .ok ctx' →
        ctx.lobby.players_seq ≤ ctx'.lobby.players_seq)
    ∧ (∀ (ctx : HostCtx) (cid : ClientId) (ud : List Nat) (sp : SpawnProperty)
        (r : Nat) (out : HostCtx × List OutMsg),
        hostClientConnected ctx cid ud sp r = .ok out →
          out.1.lobby.players_seq = ctx.lobby.players_seq + 1 ∧
            out.1.spawnCount = ctx.spawnCount + 1)
    ∧ (∀ (ctx : HostCtx) (sp : SpawnProperty) (u : List Nat) (r : Nat)
        (ctx' : HostCtx), hostLoadProcessing ctx sp u r = .ok ctx' →
          (ctx.hasMe = false → sp.is_empty = false →
            ctx'.lobby.players_seq = ctx.lobby.players_seq + 1 ∧
              ctx'.spawnCount = ctx.spawnCount + 1)
          ∧ (ctx.hasMe = true ∨ sp.is_empty = true →
            ctx'.lobby.players_seq = ctx.lobby.players_seq ∧
              ctx'.spawnCount = ctx.spawnCount))
    ∧ (∀ (ctx : HostCtx) (cid : ClientId) (out : HostCtx × List OutMsg),
        hostClientDisconnected ctx cid = .ok out →
          out.1.lobby.players_seq = ctx.lobby.players_seq ∧
            out.1.spawnCount = ctx.spawnCount) :=
  ⟨hostRun_seq_le, hostClientConnected_counters, hostLoadProcessing_counters,
   hostClientDisconnected_counters⟩

/-- Witness for C8: a concrete connect event increments the counter from 0
to 1, and a concrete run (a disconnect of an unknown client) leaves it
unchanged. -/
theorem players_seq_invariant_witness :
    ∃ out, hostClientConnected ⟨Lobby.default, 0, 0, false, false⟩ 7
        (List.replicate 256 0) [Vec3.zero] 0 = .ok out ∧
      out.1.lobby.players_seq = 1 ∧
      (⟨Lobby.default, 0, 0, false, false⟩ : HostCtx).lobby.players_seq ≤
        (⟨Lobby.default, 0, 0, false, false⟩ : HostCtx).lobby.players_seq := by
  refine ⟨_, rfl, ?_, ?_⟩
  · exact (players_seq_invariant.2.1 ⟨Lobby.default, 0, 0, false, false⟩ 7
      (List.replicate 256 0) [Vec3.zero] 0 _ rfl).1
  · exact players_seq_invariant.1 ⟨Lobby.default, 0, 0, false, false⟩
      [HostOp.clientDisconnected 3] ⟨Lobby.default, 0, 0, false, false⟩ rfl

/-- C1: on a new client connection the host sends, in order: exactly one
`InitConnection{id}` unicast to that client; one `PlayerConnected` unicast
to that client per registry entry existing *before* the new player is
registered (so an empty registry yields zero bootstrap messages and a
one-entry registry yields exactly one); and finally a single
`PlayerConnected` broadcast for the new player.  The new player is
registered only afterwards. -/
theorem host_connect_bootstrap (ctx : HostCtx) (cid : ClientId)
    (ud : List Nat) (sp : SpawnProperty) (r : Nat) (h : sp ≠ []) :
    ∃ ctx', hostClientConnected ctx cid ud sp r = .ok (ctx',
        OutMsg.unicast cid (.initConnection cid) ::
        ctx.lobby.players.map (fun p =>
          OutMsg.unicast cid (.playerConnected p.1 p.2.color p.2.username)) ++
        [OutMsg.broadcast (.playerConnected (.client cid)
          (generate_player_color (u32cast (ctx.lobby.players_seq + 1)))
          (decodedUsername ud))]) ∧
      ctx'.lobby.players_seq = ctx.lobby.players_seq + 1 ∧
      List.lookup (PlayerId.client cid) ctx'.lobby.players =
        some (PlayerData.new ctx.nextEntity
          (generate_player_color (u32cast (ctx.lobby.players_seq + 1)))
          (decodedUsername ud)) ∧
      (ctx.lobby.players = [] →
        ctx'.lobby.players = [(PlayerId.client cid,
          PlayerData.new ctx.nextEntity
            (generate_player_color (u32cast (ctx.lobby.players_seq + 1)))
            (decodedUsername ud))]) ∧
      (∀ pid0 pd0, ctx.lobby.players = [(pid0, pd0)] →
        ctx.lobby.players.map (fun p =>
          OutMsg.unicast cid (.playerConnected p.1 p.2.color p.2.username)) =
        [OutMsg.unicast cid (.playerConnected pid0 pd0.color pd0.username)]) := by
  obtain ⟨v, hv, _⟩ := random_point_spec.1 sp r h
  refine ⟨{ ctx with
      lobby := { ctx.lobby with
        players := alistInsert ctx.lobby.players (PlayerId.client cid)
          (PlayerData.new ctx.nextEntity
            (generate_player_color (u32cast (ctx.lobby.players_seq + 1)))
            (decodedUsername ud)),
        players_seq := ctx.lobby.players_seq + 1 },
      nextEntity := ctx.nextEntity + 1,
      spawnCount := ctx.spawnCount + 1 }, ?_, ?_, ?_, ?_, ?_⟩
  · rw [hostClientConnected, hv]
  · rfl
  · exact lookup_alistInsert_self _ _ _
  · intro he
    simp [alistInsert, he]
  · intro pid0 pd0 he
    rw [he]
    simp

/-- Witness for C1, the spec's host-bootstrap scenario: client 1 connects to
a fresh host and receives `InitConnection{1}`, zero bootstrap messages and
the broadcast for itself; client 2 then connects and receives
`InitConnection{2}`, exactly one bootstrap unicast (for client 1) and the
broadcast for itself. -/
theorem host_connect_bootstrap_witness :
    ∃ ctx1 ctx2,
      hostClientConnected ⟨Lobby.default, 0, 0, false, false⟩ 1
          (List.replicate 256 0) [Vec3.zero] 0 = .ok (ctx1,
        [OutMsg.unicast 1 (.initConnection 1),
         OutMsg.broadcast (.playerConnected (.client 1)
           (generate_player_color 1) (decodedUsername (List.replicate 256 0)))]) ∧
      hostClientConnected ctx1 2 (List.replicate 256 0) [Vec3.zero] 0 =
        .ok (ctx2,
        [OutMsg.unicast 2 (.initConnection 2),
         OutMsg.unicast 2 (.playerConnected (.client 1)
           (generate_player_color 1) (decodedUsername (List.replicate 256 0))),
         OutMsg.broadcast (.playerConnected (.client 2)
           (generate_player_color 2) (decodedUsername (List.replicate 256 0)))]) := by
  obtain ⟨ctx1, hconn1, hseq1, _, hafter1, _⟩ :=
    host_connect_bootstrap ⟨Lobby.default, 0, 0, false, false⟩ 1
      (List.replicate 256 0) [Vec3.zero] 0 (by simp)
  obtain ⟨ctx2, hconn2, _, _, _, hsingle2⟩ :=
    host_connect_bootstrap ctx1 2 (List.replicate 256 0) [Vec3.zero] 0
      (by simp)
  have hp1 : ctx1.lobby.players = [(PlayerId.client 1,
      PlayerData.new 0 (generate_player_color 1)
        (decodedUsername (List.replicate 256 0)))] := hafter1 rfl
  refine ⟨ctx1, ctx2, ?_, ?_⟩
  · simpa [u32cast, Lobby.default] using hconn1
  · rw [hconn2, hp1, hseq1]
    simp [PlayerData.new, Lobby.default, u32cast]

/-- C4: the first `InitConnection` records the client's own assigned
identity; a second `InitConnection` while an identity is already recorded
is a fatal protocol violation (the `panic!` at src/lobby/client.rs:132)
that stops all further processing of the batch instead of overwriting the
identity. -/
theorem init_connection_once (st : CState) (i : ClientId) :
    (st.own_id = none →
      clientProcessMessage st (.initConnection i) =
        .ok { st with own_id := some i })
    ∧ (∀ j, st.own_id = some j → ∀ rest : List ServerMessages,
        clientProcessReliable st (.initConnection i :: rest) =
          .error .doubleInit) := by
  constructor
  · intro h
    simp [clientProcessMessage, h]
  · intro j hj rest
    rw [clientProcessReliable]
    simp [clientProcessMessage, hj]

/-- Witness for C4: a fresh client records identity 5; once recorded, a
second `InitConnection` is fatal even with further messages queued. -/
theorem init_connection_once_witness :
    clientProcessMessage
        ⟨Lobby.default, none, TransportData.default, [], [], [], [], [], 0, 0, []⟩
        (.initConnection 5) =
      .ok { (⟨Lobby.default, none, TransportData.default, [], [], [], [], [], 0,
          0, []⟩ : CState) with own_id := some 5 } ∧
    clientProcessReliable
        ⟨Lobby.default, some 5, TransportData.default, [], [], [], [], [], 0, 0, []⟩
        [.initConnection 6, .changeMap] = .error .doubleInit :=
  ⟨(init_connection_once
      ⟨Lobby.default, none, TransportData.default, [], [], [], [], [], 0, 0, []⟩
      5).1 rfl,
   (init_connection_once
      ⟨Lobby.default, some 5, TransportData.default, [], [], [], [], [], 0, 0, []⟩
      6).2 5 rfl [.changeMap]⟩

/-- Counterexample for C6: receiving `ProjectileSpawn` on the client executes
the `todo!()` marker, which panics — processing stops fatally (the
remainder of the batch is never handled), contradicting "does not crash
the process". -/
theorem projectile_spawn_crash_counterexample :
    clientProcessReliable
        ⟨Lobby.default, some 5, TransportData.default, [], [], [], [], [], 0, 0, []⟩
        [.projectileSpawn 7 Color.RED, .changeMap] =
      .error .todoProjectileSpawn := rfl

/-- C6 as amended: `ProjectileSpawn` receipt is flagged as a known gap by an
explicit not-yet-implemented marker (`todo!()`), but executing that marker
panics: processing of the connection stops fatally at that message,
whatever state the client is in and whatever messages follow. -/
theorem projectile_spawn_todo (st : CState) (id : LinkId) (c : Color)
    (rest : List ServerMessages) :
    clientProcessReliable st (.projectileSpawn id c :: rest) =
      .error .todoProjectileSpawn := by
  rw [clientProcessReliable]
  simp [clientProcessMessage]

/-- Counterexample for C5: exiting the `Client` role performs no teardown at
all (the body of `client::teardown` is commented out): a character actor
and the role-scoped resources survive. -/
theorem client_teardown_noop_counterexample :
    clientTeardown ⟨[(0, .character), (1, .tiedCamera)], true, true, 0⟩ =
        ⟨[(0, .character), (1, .tiedCamera)], true, true, 0⟩ ∧
      (clientTeardown
          ⟨[(0, .character), (1, .tiedCamera)], true, true, 0⟩).actors.filter
          (fun p => p.2 == ActorKind.character) = [(0, .character)] ∧
      (clientTeardown
          ⟨[(0, .character), (1, .tiedCamera)], true, true, 0⟩).lobbyRes =
        true := by
  refine ⟨rfl, ?_, rfl⟩
  rfl

/-- C5 as amended: host teardown despawns *all* character and camera actors
and removes both role-scoped resources, regardless of count; single
teardown (via `get_single`) despawns the camera or the character only when
exactly one of that kind exists, leaving them untouched otherwise, and
removes no resource; client teardown does nothing at all. -/
theorem teardown_behavior (w : TWorld) :
    ((hostTeardown w).actors.filter
        (fun p => p.2 == ActorKind.character || p.2 == ActorKind.tiedCamera) = []
      ∧ (hostTeardown w).lobbyRes = false
      ∧ (hostTeardown w).transportRes = false)
    ∧ clientTeardown w = w
    ∧ ((w.actors.filter (fun p => p.2 == ActorKind.tiedCamera)).length = 1 →
        (singleTeardown w).actors.filter
          (fun p => p.2 == ActorKind.tiedCamera) = [])
    ∧ ((w.actors.filter (fun p => p.2 == ActorKind.tiedCamera)).length ≠ 1 →
        (singleTeardown w).actors.filter
            (fun p => p.2 == ActorKind.tiedCamera) =
          w.actors.filter (fun p => p.2 == ActorKind.tiedCamera))
    ∧ ((w.actors.filter (fun p => p.2 == ActorKind.character)).length = 1 →
        (singleTeardown w).actors.filter
          (fun p => p.2 == ActorKind.character) = [])
    ∧ ((w.actors.filter (fun p => p.2 == ActorKind.character)).length ≠ 1 →
        (singleTeardown w).actors.filter
            (fun p => p.2 == ActorKind.character) =
          w.actors.filter (fun p => p.2 == ActorKind.character))
    ∧ (singleTeardown w).lobbyRes = w.lobbyRes
    ∧ (singleTeardown w).transportRes = w.transportRes := by
  refine ⟨⟨?_, rfl, rfl⟩, rfl, ?_, ?_, ?_, ?_, rfl, rfl⟩
  · rw [hostTeardown]
    simp only [List.filter_filter]
    rw [List.filter_eq_nil_iff]
    intro p _
    cases h2 : p.2 <;> simp
  · intro h1
    rw [singleTeardown]
    simp only [h1]
    simp only [List.filter_filter]
    rw [List.filter_eq_nil_iff]
    intro p _
    cases h2 : p.2 <;> simp
  · intro h1
    rw [singleTeardown]
    simp only [List.filter_filter]
    rw [List.filter_congr]
    intro p _
    have : decide ((List.filter (fun p => p.2 == ActorKind.tiedCamera) w.actors).length = 1) = false :=
      decide_eq_false h1
    cases h2 : p.2 <;> simp [this]
  · intro h1
    rw [singleTeardown]
    simp only [h1]
    simp only [List.filter_filter]
    rw [List.filter_eq_nil_iff]
    intro p _
    cases h2 : p.2 <;> simp
  · intro h1
    rw [singleTeardown]
    simp only [List.filter_filter]
    rw [List.filter_congr]
    intro p _
    have : decide ((List.filter (fun p => p.2 == ActorKind.character) w.actors).length = 1) = false :=
      decide_eq_false h1
    cases h2 : p.2 <;> simp [this]

/-- Witness for C5 (amended): a world with two characters, one camera and
both resources installed — host teardown clears everything, single
teardown removes only the camera (two characters make `get_single` fail)
and keeps the resources. -/
theorem teardown_behavior_witness :
    (hostTeardown ⟨[(0, .character), (1, .character), (2, .tiedCamera)],
        true, true, 0⟩).actors.filter
        (fun p => p.2 == ActorKind.character || p.2 == ActorKind.tiedCamera) = []
    ∧ (singleTeardown ⟨[(0, .character), (1, .character), (2, .tiedCamera)],
        true, true, 0⟩).actors.filter
        (fun p => p.2 == ActorKind.tiedCamera) = []
    ∧ (singleTeardown ⟨[(0, .character), (1, .character), (2, .tiedCamera)],
        true, true, 0⟩).actors.filter
          (fun p => p.2 == ActorKind.character) =
        [(0, .character), (1, .character)]
    ∧ (singleTeardown ⟨[(0, .character), (1, .character), (2, .tiedCamera)],
        true, true, 0⟩).lobbyRes = true := by
  have h := teardown_behavior
    ⟨[(0, .character), (1, .character), (2, .tiedCamera)], true, true, 0⟩
  refine ⟨h.1.1, h.2.2.1 (by decide), ?_, ?_⟩
  · rw [h.2.2.2.2.2.1 (by decide)]
    rfl
  · rw [h.2.2.2.2.2.2.1]

theorem applyPlayers_fields (ps : List (PlayerId × PlayerTransportData))
    (st st' : CState) (h : applyPlayers st ps = .ok st') :
    st'.lobby = st.lobby ∧ st'.linked = st.linked ∧
      st'.transport_data = st.transport_data := by
  induction ps generalizing st with
  | nil =>
    simp only [applyPlayers] at h
    cases h
    exact ⟨rfl, rfl, rfl⟩
  | cons p rest ih =>
    obtain ⟨pid, d⟩ := p
    simp only [applyPlayers] at h
    cases hl : List.lookup pid st.lobby.players with
    | none =>
      simp only [hl] at h
      exact ih _ h
    | some pd =>
      simp only [hl] at h
      cases he : pd.entity with
      | none => simp only [he] at h; exact absurd h (by simp)
      | some e =>
        simp only [he] at h
        have := ih _ h
        simpa using this

theorem applyActorEntry_fields (st : CState) (lid : LinkId)
    (d : ActorTransportData) :
    (applyActorEntry st lid d).lobby = st.lobby ∧
      (applyActorEntry st lid d).linked = st.linked ∧
      (applyActorEntry st lid d).views = st.views ∧
      (applyActorEntry st lid d).transport_data = st.transport_data :=
  ⟨rfl, rfl, rfl, rfl⟩

theorem applyActors_fields (as : List (LinkId × ActorTransportData))
    (st : CState) :
    (applyActors st as).lobby = st.lobby ∧
      (applyActors st as).linked = st.linked ∧
      (applyActors st as).views = st.views ∧
      (applyActors st as).transport_data = st.transport_data := by
  induction as generalizing st with
  | nil => exact ⟨rfl, rfl, rfl, rfl⟩
  | cons a rest ih =>
    obtain ⟨lid, d⟩ := a
    simp only [applyActors]
    exact ih (applyActorEntry st lid d)

theorem applySnapshot_fields (st : CState) (s : TransportData) (st' : CState)
    (h : applySnapshot st s = .ok st') :
    st'.lobby = st.lobby ∧ st'.linked = st.linked ∧
      st'.transport_data = s := by
  rw [applySnapshot] at h
  cases hp : applyPlayers { st with transport_data := s } s.players with
  | error e => rw [hp] at h; exact absurd h (by simp)
  | ok mid =>
    rw [hp] at h
    cases h
    obtain ⟨h1, h2, h3⟩ := applyPlayers_fields _ _ _ hp
    obtain ⟨g1, g2, _, g4⟩ := applyActors_fields s.actors mid
    exact ⟨g1.trans h1, g2.trans h2, g4.trans h3⟩

theorem clientDrainUnreliable_last (batch : List TransportData)
    (st st' : CState)
    (h : clientDrainUnreliable st batch = .ok st') :
    ∀ hne : batch ≠ [],
      st'.transport_data = batch.getLast hne ∧
        st'.lobby = st.lobby ∧ st'.linked = st.linked := by
  induction batch generalizing st with
  | nil => intro hne; exact absurd rfl hne
  | cons s rest ih =>
    intro hne
    simp only [clientDrainUnreliable] at h
    cases hs : applySnapshot st s with
    | error e => rw [hs] at h; exact absurd h (by simp)
    | ok mid =>
      rw [hs] at h
      obtain ⟨m1, m2, m3⟩ := applySnapshot_fields st s mid hs
      cases rest with
      | nil =>
        simp only [clientDrainUnreliable] at h
        cases h
        exact ⟨m3, m1, m2⟩
      | cons t ts =>
        obtain ⟨i1, i2, i3⟩ := ih mid h (by simp)
        refine ⟨?_, i2.trans m1, i3.trans m2⟩
        rw [i1]
        exact (List.getLast_cons _).symm

theorem applyPlayers_preserves_at (ps : List (PlayerId × PlayerTransportData))
    (st st' : CState) (e : Entity) (h : applyPlayers st ps = .ok st')
    (hsafe : ∀ pid' pd', pid' ∈ ps.map Prod.fst →
      List.lookup pid' st.lobby.players = some pd' → pd'.entity ≠ some e) :
    List.lookup e st'.transforms = List.lookup e st.transforms ∧
      List.lookup e st'.views = List.lookup e st.views := by
  induction ps generalizing st with
  | nil => simp only [applyPlayers] at h; cases h; exact ⟨rfl, rfl⟩
  | cons p rest ih =>
    obtain ⟨pid, d⟩ := p
    simp only [applyPlayers] at h
    cases hl : List.lookup pid st.lobby.players with
    | none =>
      simp only [hl] at h
      exact ih _ h (fun pid' pd' hm hlk => hsafe pid' pd' (by simp [hm]) hlk)
    | some pd =>
      simp only [hl] at h
      cases he2 : pd.entity with
      | none => simp only [he2] at h; exact absurd h (by simp)
      | some e2 =>
        simp only [he2] at h
        have hne : e ≠ e2 := by
          intro heq
          subst heq
          exact hsafe pid pd (by simp) hl he2
        have hrec := ih _ h
          (fun pid' pd' hm hlk => hsafe pid' pd' (by simp [hm]) hlk)
        refine ⟨?_, ?_⟩
        · rw [hrec.1]
          exact lookup_alistInsert_ne _ _ _ _ hne
        · rw [hrec.2]
          exact lookup_alistInsert_ne _ _ _ _ hne

theorem applyPlayers_writes (ps : List (PlayerId × PlayerTransportData))
    (st st' : CState) (pid : PlayerId) (d : PlayerTransportData)
    (pd : PlayerData) (e : Entity)
    (h : applyPlayers st ps = .ok st')
    (hnodup : (ps.map Prod.fst).Nodup)
    (hmem : (pid, d) ∈ ps)
    (hreg : List.lookup pid st.lobby.players = some pd)
    (hent : pd.entity = some e)
    (huniq : ∀ pid' pd', pid' ≠ pid →
      List.lookup pid' st.lobby.players = some pd' → pd'.entity ≠ some e) :
    List.lookup e st'.transforms =
        some ⟨d.position, d.rotation, Vec3.one⟩ ∧
      List.lookup e st'.views = some d.player_view := by
  induction ps generalizing st with
  | nil => cases hmem
  | cons p rest ih =>
    obtain ⟨pid2, d2⟩ := p
    simp only [applyPlayers] at h
    rcases List.mem_cons.mp hmem with hhead | htail
    · injection hhead with h1 h2
      subst h1
      subst h2
      simp only [hreg, hent] at h
      have hsafe : ∀ pid' pd', pid' ∈ rest.map Prod.fst →
          List.lookup pid' st.lobby.players = some pd' →
            pd'.entity ≠ some e := by
        intro pid' pd' hm hlk
        have hne : pid' ≠ pid := by
          intro heq
          subst heq
          exact (List.nodup_cons.mp hnodup).1 hm
        exact huniq pid' pd' hne hlk
      have hpres := applyPlayers_preserves_at rest _ st' e h hsafe
      refine ⟨?_, ?_⟩
      · rw [hpres.1]
        exact lookup_alistInsert_self _ _ _
      · rw [hpres.2]
        exact lookup_alistInsert_self _ _ _
    · have hpidne : pid ≠ pid2 := by
        intro heq
        subst heq
        exact (List.nodup_cons.mp hnodup).1
          (List.mem_map.mpr ⟨(pid, d), htail, rfl⟩)
      cases hl : List.lookup pid2 st.lobby.players with
      | none =>
        simp only [hl] at h
        exact ih _ h (List.nodup_cons.mp hnodup).2 htail hreg huniq
      | some pd2 =>
        simp only [hl] at h
        cases he2 : pd2.entity with
        | none => simp only [he2] at h; exact absurd h (by simp)
        | some e2 =>
          simp only [he2] at h
          exact ih _ h (List.nodup_cons.mp hnodup).2 htail hreg huniq

theorem foldl_linked_preserves (linked : List (Entity × LinkId))
    (init : List (Entity × Transform)) (lid : LinkId)
    (d : ActorTransportData) (e : Entity)
    (hsafe : ∀ p ∈ linked, p.1 ≠ e) :
    List.lookup e (linked.foldl
      (fun acc p =>
        if p.2 = lid then
          alistInsert acc p.1 ⟨d.position, d.rotation, Vec3.one⟩
        else acc)
      init) = List.lookup e init := by
  induction linked generalizing init with
  | nil => rfl
  | cons p rest ih =>
    simp only [List.foldl_cons]
    have hp : p.1 ≠ e := hsafe p (by simp)
    have htail : ∀ q ∈ rest, q.1 ≠ e := fun q hq => hsafe q (by simp [hq])
    by_cases hl : p.2 = lid
    · rw [if_pos hl, ih _ htail]
      exact lookup_alistInsert_ne _ _ _ _ (Ne.symm hp)
    · rw [if_neg hl]
      exact ih _ htail

theorem applyActors_preserves_at (as : List (LinkId × ActorTransportData))
    (st : CState) (e : Entity) (hsafe : ∀ p ∈ st.linked, p.1 ≠ e) :
    List.lookup e (applyActors st as).transforms =
      List.lookup e st.transforms := by
  induction as generalizing st with
  | nil => rfl
  | cons a rest ih =>
    obtain ⟨lid, d⟩ := a
    simp only [applyActors]
    rw [ih (applyActorEntry st lid d) hsafe]
    exact foldl_linked_preserves st.linked st.transforms lid d e hsafe

theorem applySnapshot_writes (st : CState) (s : TransportData) (st' : CState)
    (pid : PlayerId) (d : PlayerTransportData) (pd : PlayerData) (e : Entity)
    (h : applySnapshot st s = .ok st')
    (hnodup : (s.players.map Prod.fst).Nodup)
    (hmem : (pid, d) ∈ s.players)
    (hreg : List.lookup pid st.lobby.players = some pd)
    (hent : pd.entity = some e)
    (huniq : ∀ pid' pd', pid' ≠ pid →
      List.lookup pid' st.lobby.players = some pd' → pd'.entity ≠ some e)
    (hlinked : ∀ p ∈ st.linked, p.1 ≠ e) :
    List.lookup e st'.transforms =
        some ⟨d.position, d.rotation, Vec3.one⟩ ∧
      List.lookup e st'.views = some d.player_view := by
  rw [applySnapshot] at h
  cases hp : applyPlayers { st with transport_data := s } s.players with
  | error er => rw [hp] at h; exact absurd h (by simp)
  | ok mid =>
    rw [hp] at h
    cases h
    have hw := applyPlayers_writes s.players _ mid pid d pd e hp hnodup hmem
      hreg hent huniq
    have hml : mid.linked = st.linked := (applyPlayers_fields _ _ _ hp).2.1
    refine ⟨?_, ?_⟩
    · rw [applyActors_preserves_at s.actors mid e
        (fun p hq => hlinked p (hml ▸ hq))]
      exact hw.1
    · rw [(applyActors_fields s.actors mid).2.2.1]
      exact hw.2

theorem clientDrainUnreliable_writes (batch : List TransportData)
    (st st' : CState) (pid : PlayerId) (d : PlayerTransportData)
    (pd : PlayerData) (e : Entity)
    (h : clientDrainUnreliable st batch = .ok st') :
    ∀ hne : batch ≠ [],
      ((batch.getLast hne).players.map Prod.fst).Nodup →
      (pid, d) ∈ (batch.getLast hne).players →
      List.lookup pid st.lobby.players = some pd →
      pd.entity = some e →
      (∀ pid' pd', pid' ≠ pid →
        List.lookup pid' st.lobby.players = some pd' → pd'.entity ≠ some e) →
      (∀ p ∈ st.linked, p.1 ≠ e) →
        List.lookup e st'.transforms =
            some ⟨d.position, d.rotation, Vec3.one⟩ ∧
          List.lookup e st'.views = some d.player_view := by
  induction batch generalizing st with
  | nil => intro hne; exact absurd rfl hne
  | cons s rest ih =>
    intro hne hnodup hmem hreg hent huniq hlinked
    simp only [clientDrainUnreliable] at h
    cases hs : applySnapshot st s with
    | error er => rw [hs] at h; exact absurd h (by simp)
    | ok mid =>
      rw [hs] at h
      cases rest with
      | nil =>
        simp only [clientDrainUnreliable] at h
        cases h
        simp only [List.getLast_singleton] at hnodup hmem
        exact applySnapshot_writes st s _ pid d pd e hs hnodup hmem hreg hent
          huniq hlinked
      | cons t ts =>
        obtain ⟨f1, f2, _⟩ := applySnapshot_fields st s mid hs
        have hlast : (s :: t :: ts).getLast hne = (t :: ts).getLast (by simp) :=
          List.getLast_cons _
        rw [hlast] at hnodup hmem
        exact ih mid h (by simp) hnodup hmem (f1 ▸ hreg) hent
          (fun pid' pd' hne' hlk => huniq pid' pd' hne' (f1 ▸ hlk))
          (fun p hq => hlinked p (f2 ▸ hq))

/-- Counterexample for C2: the client applies *every* snapshot drained in the
tick, not only the last one.  With a registered player (entity 5) and the
batch [snapshot moving that player, empty snapshot], draining leaves the
player at the first snapshot's transform, whereas applying only the last
(empty) snapshot would leave no transform at all — earlier snapshots in
the batch are observable. -/
theorem snapshot_batch_counterexample :
    (clientDrainUnreliable cstFixture [snapMove, TransportData.default]).map
        (fun s => s.transforms) =
      .ok [(5, ⟨⟨1, 2, 3⟩, Quat.identity, Vec3.one⟩)] ∧
    (applySnapshot cstFixture TransportData.default).map
        (fun s => s.transforms) = .ok [] ∧
    ([(5, (⟨⟨1, 2, 3⟩, Quat.identity, Vec3.one⟩ : Transform))] :
        List (Entity × Transform)) ≠ [] := by
  refine ⟨rfl, rfl, ?_⟩
  simp

/-- C2 as amended: within one tick the client applies every drained snapshot
in arrival order, so only the `TransportDataResource` is guaranteed to
hold exactly the last snapshot; a player present in the last snapshot does
end at that snapshot's transform and view state, but entries carried only
by earlier snapshots of the batch remain observable (see the
counterexample). -/
theorem snapshot_drain_behavior :
    (∀ (batch : List TransportData) (st st' : CState),
      clientDrainUnreliable st batch = .ok st' → ∀ hne : batch ≠ [],
        st'.transport_data = batch.getLast hne)
    ∧ (∀ (batch : List TransportData) (st st' : CState) (pid : PlayerId)
        (d : PlayerTransportData) (pd : PlayerData) (e : Entity),
        clientDrainUnreliable st batch = .ok st' →
        ∀ hne : batch ≠ [],
          ((batch.getLast hne).players.map Prod.fst).Nodup →
          (pid, d) ∈ (batch.getLast hne).players →
          List.lookup pid st.lobby.players = some pd →
          pd.entity = some e →
          (∀ pid' pd', pid' ≠ pid →
            List.lookup pid' st.lobby.players = some pd' →
              pd'.entity ≠ some e) →
          (∀ p ∈ st.linked, p.1 ≠ e) →
            List.lookup e st'.transforms =
                some ⟨d.position, d.rotation, Vec3.one⟩ ∧
              List.lookup e st'.views = some d.player_view) :=
  ⟨fun batch st st' h hne => ((clientDrainUnreliable_last batch st st' h) hne).1,
   fun batch st st' pid d pd e h => clientDrainUnreliable_writes batch st st'
     pid d pd e h⟩

/-- Witness for C2 (amended): draining [empty snapshot, snapshot moving
player 1] leaves the `TransportDataResource` holding the last snapshot and
entity 5 at the last snapshot's transform. -/
theorem snapshot_drain_behavior_witness :
    ∃ st', clientDrainUnreliable cstFixture [TransportData.default, snapMove] =
        .ok st' ∧
      st'.transport_data = snapMove ∧
      List.lookup 5 st'.transforms =
        some ⟨⟨1, 2, 3⟩, Quat.identity, Vec3.one⟩ := by
  have huniq : ∀ pid' pd', pid' ≠ PlayerId.client 1 →
      List.lookup pid' cstFixture.lobby.players = some pd' →
        pd'.entity ≠ some 5 := by
    intro pid' pd' hne' hlk
    simp only [cstFixture, List.lookup] at hlk
    cases hbeq : pid' == PlayerId.client 1 with
    | true => exact absurd (eq_of_beq hbeq) hne'
    | false => simp only [hbeq] at hlk; cases hlk
  have hlinked : ∀ p ∈ cstFixture.linked, p.1 ≠ (5 : Entity) := by
    intro p hp
    simp [cstFixture] at hp
  refine ⟨_, rfl, ?_, ?_⟩
  · exact snapshot_drain_behavior.1 [TransportData.default, snapMove]
      cstFixture _ rfl (by simp)
  · exact (snapshot_drain_behavior.2 [TransportData.default, snapMove]
      cstFixture _ (PlayerId.client 1)
      ⟨⟨1, 2, 3⟩, Quat.identity, PlayerView.default⟩
      (PlayerData.new 5 Color.RED noname) 5 rfl (by simp)
      (by simp [snapMove]) (by simp [snapMove]) rfl rfl huniq hlinked).1

end Urmom
